import Mathlib

/-!
Verification development for the medkit annotation core and its two NER
matchers (`DucklingMatcher`, `QuickUMLSMatcher`), as a shallow embedding.

The matchers (`medkit/text/ner/duckling_matcher.py`,
`medkit/text/ner/quick_umls_matcher.py`) are translated from their Python
source.  The span algebra (`span_utils.extract`), the provenance builder and
the sentence tokenizer are not part of the provided source tree, so they are
modelled from the specification (each such definition says so in its doc
comment).  Machine-level details that no claim depends on (HTTP transport,
warnings, the external QuickUMLS index) are represented by explicit inputs:
each segment is paired with the response the external service would return
for it.
-/

deriving instance DecidableEq for Except

namespace Medkit

/-- Error taxonomy of the embedded code: `connectionError` models Python's
`ConnectionError`, `typeError` the `TypeError` raised by `x in None`,
`valueError` the `ValueError`-class failures of the span algebra,
`indexError` the `IndexError` of `list[0]` on an empty list, and
`notFoundError` the exception raised for an unregistered QuickUMLS install. -/
inductive MedkitError where
  | connectionError
  | typeError
  | valueError
  | indexError
  | notFoundError
deriving DecidableEq, Repr

/-- Modelled from the spec (§3, Span Model): a span is either a simple
half-open offset range `[start, stop)` into the original text, or a modified
span holding the ordered replaced sub-spans (simple spans of the original
text, or `none` for inserted text with no source counterpart) together with
the length of the replacement text.  Python's `end` field is called `stop`
here because `end` is a Lean keyword. -/
inductive AnySpan where
  | simple (start stop : Nat)
  | modified (replaced_spans : List (Option (Nat × Nat))) (length : Nat)
deriving DecidableEq, Repr

/-- Length of the substring a span denotes. -/
def spanLength : AnySpan → Nat
  | .simple s e => e - s
  | .modified _ len => len

/-- Values stored in an attribute's metadata dict: the dicts built by the two
matchers hold strings (version, score) and one list of strings (sem_types). -/
inductive MetadataValue where
  | str (s : String)
  | strList (l : List String)
deriving DecidableEq, Repr

/-- `medkit.core.Attribute`: id, label, value, metadata.  Object identity of
a Python `Attribute` instance is represented by its generated `id` (each
constructed object consumes one fresh id, so two objects are the same
instance exactly when their ids are equal). -/
structure Attribute where
  id : Nat
  label : String
  value : String
  metadata : List (String × MetadataValue)
deriving DecidableEq, Repr

/-- `medkit.core.text.Segment`: id, label, text, spans and attributes. -/
structure Segment where
  id : Nat
  label : String
  text : List Char
  spans : List AnySpan
  attrs : List Attribute
deriving DecidableEq, Repr

/-- `medkit.core.text.Entity`: same shape as a segment. -/
structure Entity where
  id : Nat
  label : String
  text : List Char
  spans : List AnySpan
  attrs : List Attribute
deriving DecidableEq, Repr

/-- Modelled from the spec (§3/§4.4, Provenance graph and test_prov): one
`add_prov(data_item, operation_description, source_data_items)` call, recorded
as the produced item's id, the producing operation's id and the ordered ids of
the source items. -/
structure ProvRecord where
  data_item_id : Nat
  operation_id : Nat
  source_ids : List Nat
deriving DecidableEq, Repr

/-- The substring `text[s:e]` (Python slicing semantics on in-range bounds). -/
def sliceChars (text : List Char) (s e : Nat) : List Char :=
  (text.take e).drop s

/-- Modelled from the spec (§4.1): the requested ranges must be in increasing
order, non-overlapping, not reversed and within the bounds of the denoted
text; `lo` is the least admissible start (the previous range's end) and `n`
the length of the denoted text. -/
def rangesChainedFrom (lo n : Nat) : List (Nat × Nat) → Bool
  | [] => true
  | (s, e) :: rest =>
      decide (lo ≤ s) && decide (s ≤ e) && decide (e ≤ n) && rangesChainedFrom e n rest

/-- Modelled from the spec (§4.1): walk `spans` with a running offset and
select the part overlapping the range `[s, e)` expressed in the coordinate
system of the denoted text.  A simple span is trimmed to the overlap; a
modified span is kept whole when the range covers all of it and makes the
extraction fail otherwise (splitting a modified span at an interior point is
unsupported and must raise).  Running out of spans with characters still
requested fails. -/
def sliceSpans (spans : List AnySpan) (s e : Nat) : Except MedkitError (List AnySpan) :=
  if e ≤ s then .ok []
  else
    match spans with
    | [] => .error .valueError
    | sp :: rest =>
        let L := spanLength sp
        if L ≤ s then sliceSpans rest (s - L) (e - L)
        else
          let hi := min e L
          let piece : Except MedkitError AnySpan :=
            match sp with
            | .simple a _ => .ok (.simple (a + s) (a + hi))
            | .modified rs len =>
                if s = 0 ∧ hi = len then .ok (.modified rs len) else .error .valueError
          match piece with
          | .error er => .error er
          | .ok p =>
              if e ≤ L then .ok [p]
              else
                match sliceSpans rest 0 (e - L) with
                | .error er => .error er
                | .ok ps => .ok (p :: ps)

/-- Spans selected for each requested range, concatenated in range order. -/
def sliceSpansAll (spans : List AnySpan) : List (Nat × Nat) → Except MedkitError (List AnySpan)
  | [] => .ok []
  | (s, e) :: rest =>
      match sliceSpans spans s e with
      | .error er => .error er
      | .ok ps =>
          match sliceSpansAll spans rest with
          | .error er => .error er
          | .ok ps' => .ok (ps ++ ps')

/-- Modelled from the spec (§4.1, `span_utils.extract` — not under the
provided source tree src/): given the denoted `text`, its current `spans` and
half-open ranges in the coordinate system of `text`, return the concatenation
of the selected substrings together with the spans, against the original
reference text, that denote it.  Invalid ranges (reversed, overlapping, out of
order or out of bounds) fail with a `ValueError`-class error. -/
def extract (text : List Char) (spans : List AnySpan) (ranges : List (Nat × Nat)) :
    Except MedkitError (List Char × List AnySpan) :=
  if rangesChainedFrom 0 text.length ranges then
    match sliceSpansAll spans ranges with
    | .error er => .error er
    | .ok newSpans => .ok ((ranges.map (fun r => sliceChars text r.1 r.2)).flatten, newSpans)
  else .error .valueError

/-- Characters that end a sentence for the segmentation scenario: the
punctuation and line-break characters exercised by `tests/text/test_segmentation.py`
(dot, semicolon, question mark, exclamation mark, carriage return, newline). -/
def isSentencePunct (c : Char) : Bool :=
  c = '.' || c = ';' || c = '?' || c = '!' || c = '\r' || c = '\n'

/-- Length of the longest prefix whose characters all satisfy `p`. -/
def takeWhileLen (p : Char → Bool) : List Char → Nat
  | [] => 0
  | c :: rest => if p c then takeWhileLen p rest + 1 else 0

/-- Modelled from the spec (§8, end-to-end scenario — `SentenceTokenizer` is
not under the provided source tree src/): scan the document text, skipping
leading spaces, taking a maximal punctuation-free run as the sentence body and
the following maximal punctuation run as its terminator.  Returns for each
sentence the triple (start offset, body end offset, terminator end offset) in
the coordinate system of the scanned text.  `fuel` bounds the recursion and is
always called with more fuel than characters. -/
def sentenceBoundsAux : Nat → List Char → Nat → List (Nat × Nat × Nat)
  | 0, _, _ => []
  | fuel + 1, cs, pos =>
      let ws := takeWhileLen (fun c => c = ' ') cs
      let cs1 := cs.drop ws
      match cs1 with
      | [] => []
      | _ :: _ =>
          let content := takeWhileLen (fun c => !(isSentencePunct c)) cs1
          let cs2 := cs1.drop content
          let punct := takeWhileLen isSentencePunct cs2
          let cs3 := cs2.drop punct
          let here :=
            if content = 0 then []
            else [(pos + ws, pos + ws + content, pos + ws + content + punct)]
          here ++ sentenceBoundsAux fuel cs3 (pos + ws + content + punct)

/-- A sentence segment produced by the segmentation scenario: its denoted text
and its spans against the original document text. -/
structure Sentence where
  text : List Char
  spans : List AnySpan
deriving DecidableEq, Repr

/-- Modelled from the spec (§8): the sentence segmentation operation.  With
`keep_punct` the produced segment extends through its punctuation terminator,
without it the terminator is dropped; either way the segment's text and spans
are derived from the document text by offset selection. -/
def sentenceTokenize (keep_punct : Bool) (text : List Char) : List Sentence :=
  (sentenceBoundsAux (text.length + 1) text 0).map fun b =>
    let e := if keep_punct then b.2.2 else b.2.1
    { text := sliceChars text b.1 e, spans := [.simple b.1 e] }

/-- The document text of `tests/text/test_segmentation.py`. -/
def segmentationText : List Char :=
  ("Sentence testing the dot. We are testing the carriage return\rthis is the"
    ++ " newline\n Test interrogation ? Now, testing semicolon;Exclamation! Several"
    ++ " punctuation characters?!...").toList

/-- `DucklingMatcher` (duckling_matcher.py): the stored configuration set by
`__init__` plus whether a provenance builder has been attached via
`set_prov_builder` (`prov_builder = true` iff `self._prov_builder is not None`;
the builder itself is modelled by the returned `ProvRecord` list). -/
structure DucklingMatcher where
  id : Nat
  output_label : String
  version : String
  url : String
  locale : String
  dims : Option (List String)
  attrs_to_copy : List String
  prov_builder : Bool
deriving DecidableEq, Repr

/-- One match dict of the JSON body returned by the Duckling server's
`/parse` endpoint: the fields the matcher reads (`dim`, `start`, `end`
— called `stop` here — and `value`). -/
structure DMatch where
  dim : String
  start : Nat
  stop : Nat
  value : String
deriving DecidableEq, Repr

/-- The `/parse` HTTP response for one segment: status code and parsed JSON
body.  `DucklingMatcher.run` is deterministic given the responses, so the
embedding pairs each input segment with its response. -/
structure DResponse where
  status : Nat
  matchList : List DMatch
deriving DecidableEq, Repr

/-- Python's `match["dim"] not in self.dims` (duckling_matcher.py line 131):
membership when `self.dims` is a list, `TypeError` when it is `None`
(`in None` is not iterable).  Returns whether the match is kept. -/
def dimCheck : Option (List String) → String → Except MedkitError Bool
  | none, _ => .error .typeError
  | some ds, d => .ok (ds.contains d)

/-- The normalization attribute built for one Duckling match
(duckling_matcher.py lines 141-147); `fresh` is the id generated for it. -/
def dNormAttr (m : DucklingMatcher) (mt : DMatch) (fresh : Nat) : Attribute :=
  { id := fresh, label := m.output_label, value := mt.value,
    metadata := [("version", .str m.version)] }

/-- The entity built for one Duckling match (duckling_matcher.py lines
139-155): the attributes of the source segment whose label is in
`attrs_to_copy` (the same attribute objects, not copies), followed by the
newly created normalization attribute.  The attribute consumes id `fresh`
and the entity, created after it, id `fresh + 1`. -/
def dEntity (m : DucklingMatcher) (seg : Segment) (mt : DMatch)
    (text : List Char) (spans : List AnySpan) (fresh : Nat) : Entity :=
  { id := fresh + 1, label := mt.dim, text := text, spans := spans,
    attrs := seg.attrs.filter (fun a => m.attrs_to_copy.contains a.label)
      ++ [dNormAttr m mt fresh] }

/-- The `add_prov` calls issued for one Duckling match (duckling_matcher.py
lines 157-163): when a provenance builder is attached, one call for the
entity and one for its normalization attribute, each with the matcher's
operation description and the source segment as sole source item. -/
def dProvRecords (m : DucklingMatcher) (seg : Segment) (e : Entity) (na : Attribute) :
    List ProvRecord :=
  if m.prov_builder then
    [{ data_item_id := e.id, operation_id := m.id, source_ids := [seg.id] },
     { data_item_id := na.id, operation_id := m.id, source_ids := [seg.id] }]
  else []

/-- The loop of `DucklingMatcher._find_matches_in_segment` over the parsed
matches: skipped matches (dim not in `dims`) create no objects; kept matches
extract text and spans via the span algebra, build the normalization
attribute and the entity, and record provenance.  Returns the produced
entities, the `add_prov` calls issued, and the next fresh id. -/
def dFindMatches (m : DucklingMatcher) (seg : Segment) :
    List DMatch → Nat → Except MedkitError (List Entity × List ProvRecord × Nat)
  | [], fresh => .ok ([], [], fresh)
  | mt :: rest, fresh =>
      match dimCheck m.dims mt.dim with
      | .error er => .error er
      | .ok keep =>
          if keep then
            match extract seg.text seg.spans [(mt.start, mt.stop)] with
            | .error er => .error er
            | .ok (text, spans) =>
                let na := dNormAttr m mt fresh
                let e := dEntity m seg mt text spans fresh
                match dFindMatches m seg rest (fresh + 2) with
                | .error er => .error er
                | .ok (es, ps, f) => .ok (e :: es, dProvRecords m seg e na ++ ps, f)
          else dFindMatches m seg rest fresh

/-- `DucklingMatcher._find_matches_in_segment` for one segment: a response
status other than 200 raises `ConnectionError` before any match is processed
(duckling_matcher.py lines 124-127). -/
def dFindSegment (m : DucklingMatcher) (seg : Segment) (resp : DResponse) (fresh : Nat) :
    Except MedkitError (List Entity × List ProvRecord × Nat) :=
  if resp.status = 200 then dFindMatches m seg resp.matchList fresh
  else .error .connectionError

/-- `DucklingMatcher.run`: the flattened list of entities found in each
segment, in order; any exception raised while processing a segment aborts the
whole call, so a failed run returns no entities at all. -/
def dRun (m : DucklingMatcher) :
    List (Segment × DResponse) → Nat → Except MedkitError (List Entity × List ProvRecord × Nat)
  | [], fresh => .ok ([], [], fresh)
  | (seg, resp) :: rest, fresh =>
      match dFindSegment m seg resp fresh with
      | .error er => .error er
      | .ok (es, ps, f) =>
          match dRun m rest f with
          | .error er => .error er
          | .ok (es', ps', f') => .ok (es ++ es', ps ++ ps', f')

/-- The serializable configuration stored in a `DucklingMatcher`'s operation
description (duckling_matcher.py lines 78-85). -/
structure DucklingConfig where
  output_label : String
  version : String
  url : String
  locale : String
  dims : Option (List String)
  attrs_to_copy : List String
deriving DecidableEq, Repr

/-- `medkit.core.OperationDescription` as used by the Duckling matcher:
id, class name and configuration. -/
structure OperationDescription where
  id : Nat
  name : String
  config : DucklingConfig
deriving DecidableEq, Repr

/-- `DucklingMatcher.description` (duckling_matcher.py lines 76-88). -/
def DucklingMatcher.description (m : DucklingMatcher) : OperationDescription :=
  { id := m.id, name := "DucklingMatcher",
    config := { output_label := m.output_label, version := m.version, url := m.url,
                locale := m.locale, dims := m.dims, attrs_to_copy := m.attrs_to_copy } }

/-- `DucklingMatcher.__init__` (duckling_matcher.py lines 30-74): a missing
`proc_id` is replaced by a generated id (`generatedId` models the value
`generate_id()` would return), a missing `attrs_to_copy` by the empty list;
the provenance builder starts unattached.  The `_test_connection()` call is an
external side effect that does not touch the configuration and is assumed to
succeed here. -/
def ducklingInit (output_label version url locale : String) (dims : Option (List String))
    (attrs_to_copy : Option (List String)) (proc_id : Option Nat) (generatedId : Nat) :
    DucklingMatcher :=
  { id := proc_id.getD generatedId, output_label := output_label, version := version,
    url := url, locale := locale, dims := dims,
    attrs_to_copy := attrs_to_copy.getD [], prov_builder := false }

/-- `DucklingMatcher.from_description` (duckling_matcher.py lines 174-176):
`cls(proc_id=description.id, **description.config)`. -/
def DucklingMatcher.from_description (d : OperationDescription) (generatedId : Nat) :
    DucklingMatcher :=
  ducklingInit d.config.output_label d.config.version d.config.url d.config.locale
    d.config.dims (some d.config.attrs_to_copy) (some d.id) generatedId

/-- `_QuickUMLSInstall` (quick_umls_matcher.py lines 33-37): the four settings
identifying a registered QuickUMLS installation. -/
structure QuickUMLSInstall where
  version : String
  language : String
  lowercase : Bool
  normalize_unicode : Bool
deriving DecidableEq, Repr

/-- The class-level registry `QuickUMLSMatcher._install_paths`, a dict from
install settings to path.  Dict assignment and lookup are modelled by an
association list where the most recent registration comes first. -/
abbrev Installs := List (QuickUMLSInstall × String)

/-- `QuickUMLSMatcher.add_install` (quick_umls_matcher.py lines 79-107):
`cls._install_paths[install] = str(path)`. -/
def add_install (reg : Installs) (path version language : String)
    (lowercase normalize_unicode : Bool) : Installs :=
  ({ version := version, language := language, lowercase := lowercase,
     normalize_unicode := normalize_unicode }, path) :: reg

/-- `QuickUMLSMatcher.clear_installs` (quick_umls_matcher.py lines 109-112). -/
def clear_installs (_ : Installs) : Installs := []

/-- Dict lookup in the install registry: the most recent registration for the
given settings, if any. -/
def lookupInstall : Installs → QuickUMLSInstall → Option String
  | [], _ => none
  | (k, v) :: rest, i => if k = i then some v else lookupInstall rest i

/-- `QuickUMLSMatcher._get_path_to_install` (quick_umls_matcher.py lines
114-135): raises when no install was registered for the settings. -/
def get_path_to_install (reg : Installs) (version language : String)
    (lowercase normalize_unicode : Bool) : Except MedkitError String :=
  let install : QuickUMLSInstall :=
    { version := version, language := language,
      lowercase := lowercase, normalize_unicode := normalize_unicode }
  match lookupInstall reg install with
  | some p => .ok p
  | none => .error .notFoundError

/-- `QuickUMLSMatcher` (quick_umls_matcher.py): the configuration stored by
`__init__` plus whether a provenance tracer is attached (the `_prov_tracer`
optional of the `NEROperation` base class).  `threshold` and the candidate
scores are floats never computed with; they are carried as opaque strings. -/
structure QuickUMLSMatcher where
  id : Nat
  language : String
  version : String
  lowercase : Bool
  normalize_unicode : Bool
  overlapping : String
  threshold : String
  window : Nat
  similarity : String
  accepted_semtypes : List String
  attrs_to_copy : List String
  prov_tracer : Bool
deriving DecidableEq, Repr

/-- `QuickUMLSMatcher.__init__` (quick_umls_matcher.py lines 137-224): looks
up the registered install for the four settings and fails with the registry's
exception when none exists; the construction of the external `QuickUMLS`
object from the returned path and its flag assertion are external effects
assumed consistent.  A missing `attrs_to_copy` becomes the empty list. -/
def quickUMLSInit (reg : Installs) (version language : String)
    (lowercase normalize_unicode : Bool) (overlapping threshold : String)
    (window : Nat) (similarity : String) (accepted_semtypes : List String)
    (attrs_to_copy : Option (List String)) (uid : Nat) :
    Except MedkitError QuickUMLSMatcher :=
  match get_path_to_install reg version language lowercase normalize_unicode with
  | .error er => .error er
  | .ok _ =>
      .ok { id := uid, language := language, version := version,
            lowercase := lowercase, normalize_unicode := normalize_unicode,
            overlapping := overlapping, threshold := threshold, window := window,
            similarity := similarity, accepted_semtypes := accepted_semtypes,
            attrs_to_copy := attrs_to_copy.getD [], prov_tracer := false }

/-- One candidate dict returned by `QuickUMLS.match` for a match location:
the fields the matcher reads (`start`, `end` — called `stop` here — `term`,
`cui`, `similarity`, `semtypes`). -/
structure Candidate where
  start : Nat
  stop : Nat
  term : String
  cui : String
  similarity : String
  semtypes : List String
deriving DecidableEq, Repr

/-- Modelled from the spec (§3, attrs keyed by label — the annotation module
is not under the provided source tree src/): the nested loops
`for label in self.attrs_to_copy: for attr in segment.get_attrs_by_label(label)`
of quick_umls_matcher.py lines 262-264, collecting the source segment's own
attribute objects grouped by requested label. -/
def copiedAttrs (labels : List String) (attrs : List Attribute) : List Attribute :=
  match labels with
  | [] => []
  | lbl :: rest => attrs.filter (fun a => a.label = lbl) ++ copiedAttrs rest attrs

/-- The normalization attribute built for one QuickUMLS match
(quick_umls_matcher.py lines 270-278); `fresh` is the id generated for it. -/
def qNormAttr (m : QuickUMLSMatcher) (c : Candidate) (fresh : Nat) : Attribute :=
  { id := fresh, label := "umls", value := c.cui,
    metadata := [("version", .str m.version), ("score", .str c.similarity),
                 ("sem_types", .strList c.semtypes)] }

/-- The entity built for one QuickUMLS match (quick_umls_matcher.py lines
256-279): created before its normalization attribute, so the entity consumes
id `fresh` and the attribute id `fresh + 1`; its attributes are the shared
copied attributes followed by the normalization attribute. -/
def qEntity (m : QuickUMLSMatcher) (seg : Segment) (c : Candidate)
    (text : List Char) (spans : List AnySpan) (fresh : Nat) : Entity :=
  { id := fresh, label := c.term, text := text, spans := spans,
    attrs := copiedAttrs m.attrs_to_copy seg.attrs ++ [qNormAttr m c (fresh + 1)] }

/-- The `add_prov` calls issued for one QuickUMLS match (quick_umls_matcher.py
lines 281-287). -/
def qProvRecords (m : QuickUMLSMatcher) (seg : Segment) (e : Entity) (na : Attribute) :
    List ProvRecord :=
  if m.prov_tracer then
    [{ data_item_id := e.id, operation_id := m.id, source_ids := [seg.id] },
     { data_item_id := na.id, operation_id := m.id, source_ids := [seg.id] }]
  else []

/-- The loop of `QuickUMLSMatcher._find_matches_in_segment` over the match
locations returned by `QuickUMLS.match`: `match_candidates[0]` takes the first
candidate of each location (an `IndexError` on an empty candidate list) and
the remaining candidates are never read. -/
def qFindMatches (m : QuickUMLSMatcher) (seg : Segment) :
    List (List Candidate) → Nat → Except MedkitError (List Entity × List ProvRecord × Nat)
  | [], fresh => .ok ([], [], fresh)
  | [] :: _, _ => .error .indexError
  | (c :: _) :: rest, fresh =>
          match extract seg.text seg.spans [(c.start, c.stop)] with
          | .error er => .error er
          | .ok (text, spans) =>
              let e := qEntity m seg c text spans fresh
              let na := qNormAttr m c (fresh + 1)
              match qFindMatches m seg rest (fresh + 2) with
              | .error er => .error er
              | .ok (es, ps, f) => .ok (e :: es, qProvRecords m seg e na ++ ps, f)

/-- `QuickUMLSMatcher.run`: the flattened list of entities found in each
segment, each segment paired with the match locations `QuickUMLS.match`
returns for its text. -/
def qRun (m : QuickUMLSMatcher) :
    List (Segment × List (List Candidate)) → Nat →
    Except MedkitError (List Entity × List ProvRecord × Nat)
  | [], fresh => .ok ([], [], fresh)
  | (seg, ms) :: rest, fresh =>
      match qFindMatches m seg ms fresh with
      | .error er => .error er
      | .ok (es, ps, f) =>
          match qRun m rest f with
          | .error er => .error er
          | .ok (es', ps', f') => .ok (es ++ es', ps ++ ps', f')

/-- A produced segment is recoverable from the document text: its spans are a
single simple span and its text is the document text at those offsets. -/
def recoverable (doc : List Char) (s : Sentence) : Bool :=
  match s.spans with
  | [.simple a b] => s.text == sliceChars doc a b
  | _ => false

/-- Shape of every entity produced by the Duckling loop for segment `seg` and
parsed matches `ms`, together with its provenance records among `ps`: the
entity comes from some match, its text and spans are the extraction result
for that match's offsets, and with a provenance builder attached both the
entity and its normalization attribute (id `fr`) have records with the
matcher as operation and the segment as sole source. -/
def DGood (m : DucklingMatcher) (seg : Segment) (ms : List DMatch)
    (ps : List ProvRecord) (e : Entity) : Prop :=
  ∃ mt ∈ ms, ∃ fr ts sp,
    extract seg.text seg.spans [(mt.start, mt.stop)] = .ok (ts, sp) ∧
    e = dEntity m seg mt ts sp fr ∧
    (m.prov_builder = true →
      ProvRecord.mk e.id m.id [seg.id] ∈ ps ∧ ProvRecord.mk fr m.id [seg.id] ∈ ps)

/-- Shape of every entity produced by the QuickUMLS loop: it comes from the
first candidate of some match location. -/
def QGood (m : QuickUMLSMatcher) (seg : Segment) (ms : List (List Candidate))
    (ps : List ProvRecord) (e : Entity) : Prop :=
  ∃ loc ∈ ms, ∃ c, loc.head? = some c ∧ ∃ fr ts sp,
    extract seg.text seg.spans [(c.start, c.stop)] = .ok (ts, sp) ∧
    e = qEntity m seg c ts sp fr ∧
    (m.prov_tracer = true →
      ProvRecord.mk e.id m.id [seg.id] ∈ ps ∧ ProvRecord.mk (fr + 1) m.id [seg.id] ∈ ps)

/-- Concrete attribute attached to the concrete source segment below. -/
def aNegW : Attribute := { id := 5, label := "negation", value := "true", metadata := [] }

/-- Concrete source segment used to instantiate the theorems: it denotes the
text "in 3 days" located at offsets 10-19 of its document. -/
def segW : Segment :=
  { id := 1, label := "sentence", text := "in 3 days".toList,
    spans := [.simple 10 19], attrs := [aNegW] }

/-- Concrete Duckling matcher with a provenance builder attached. -/
def dmW : DucklingMatcher :=
  { id := 7, output_label := "date", version := "v1", url := "http://localhost:8000",
    locale := "fr_FR", dims := some ["time"], attrs_to_copy := ["negation"],
    prov_builder := true }

/-- The concrete matcher with `dims=None`. -/
def dmNone : DucklingMatcher := { dmW with dims := none }

/-- Concrete Duckling match covering "3 days" inside the segment's text. -/
def mtW : DMatch := { dim := "time", start := 3, stop := 9, value := "in 3 days" }

/-- Concrete successful `/parse` response. -/
def respW : DResponse := { status := 200, matchList := [mtW] }

/-- Concrete failed `/parse` response. -/
def respBad : DResponse := { status := 500, matchList := [] }

/-- The entity `dRun dmW [(segW, respW)] 100` produces: it carries the very
same attribute object `aNegW` that is attached to the source segment. -/
def entC3 : Entity :=
  { id := 101, label := "time", text := "3 days".toList, spans := [.simple 13 19],
    attrs := [aNegW, dNormAttr dmW mtW 100] }

/-- Concrete QuickUMLS matcher with a provenance tracer attached. -/
def qmW : QuickUMLSMatcher :=
  { id := 8, language := "ENG", version := "2021AB", lowercase := false,
    normalize_unicode := false, overlapping := "length", threshold := "0.9",
    window := 5, similarity := "jaccard", accepted_semtypes := ["T079"],
    attrs_to_copy := ["negation"], prov_tracer := true }

/-- Concrete first (best) candidate of a QuickUMLS match location. -/
def qcW : Candidate :=
  { start := 3, stop := 9, term := "3 days", cui := "C0439422",
    similarity := "0.95", semtypes := ["T079"] }

/-- Concrete second candidate at the same location, never read by the code. -/
def qcW2 : Candidate :=
  { start := 0, stop := 2, term := "other", cui := "C9",
    similarity := "0.91", semtypes := [] }

/-- The entity `qRun qmW [(segW, [[qcW, qcW2]])] 200` produces. -/
def entQW : Entity :=
  { id := 200, label := "3 days", text := "3 days".toList, spans := [.simple 13 19],
    attrs := [aNegW, qNormAttr qmW qcW 201] }

/-- Concrete successful `/parse` response with no matches. -/
def respEmpty : DResponse := { status := 200, matchList := [] }

/-- The text of the spec's boundary-exactness example, of length 25. -/
def dotText : List Char := "Sentence testing the dot.".toList

set_option maxRecDepth 10000

theorem dNormAttr_id (m : DucklingMatcher) (mt : DMatch) (fr : Nat) :
    (dNormAttr m mt fr).id = fr := rfl

theorem dEntity_getLast (m : DucklingMatcher) (seg : Segment) (mt : DMatch)
    (ts : List Char) (sp : List AnySpan) (fr : Nat) :
    (dEntity m seg mt ts sp fr).attrs.getLast? = some (dNormAttr m mt fr) := by
  simp [dEntity]

theorem dEntity_dropLast (m : DucklingMatcher) (seg : Segment) (mt : DMatch)
    (ts : List Char) (sp : List AnySpan) (fr : Nat) :
    (dEntity m seg mt ts sp fr).attrs.dropLast
      = seg.attrs.filter (fun a => m.attrs_to_copy.contains a.label) := by
  simp [dEntity]

theorem DGood_mono (m : DucklingMatcher) (seg : Segment) {ms ms' : List DMatch}
    {ps ps' : List ProvRecord} {e : Entity}
    (h : DGood m seg ms ps e) (hms : ∀ x ∈ ms, x ∈ ms') (hps : ∀ r ∈ ps, r ∈ ps') :
    DGood m seg ms' ps' e := by
  obtain ⟨mt, hmt, fr, ts, sp, hex, he, hp⟩ := h
  exact ⟨mt, hms mt hmt, fr, ts, sp, hex, he,
    fun hb => ⟨hps _ ((hp hb).1), hps _ ((hp hb).2)⟩⟩

theorem dFindMatches_mem (m : DucklingMatcher) (seg : Segment) :
    ∀ (ms : List DMatch) (fresh : Nat) (es : List Entity) (ps : List ProvRecord) (f : Nat),
      dFindMatches m seg ms fresh = .ok (es, ps, f) → ∀ e ∈ es, DGood m seg ms ps e := by
  intro ms
  induction ms with
  | nil =>
      intro fresh es ps f h e he
      simp only [dFindMatches, Except.ok.injEq, Prod.mk.injEq] at h
      obtain ⟨h1, _, _⟩ := h
      subst h1
      simp at he
  | cons mt rest ih =>
      intro fresh es ps f h e he
      rw [dFindMatches] at h
      split at h
      · simp at h
      · rename_i keep hdim
        split at h
        · split at h
          · simp at h
          · rename_i ts sp hex
            split at h
            · simp at h
            · rename_i es' ps' f' hrec
              simp only [Except.ok.injEq, Prod.mk.injEq] at h
              obtain ⟨h1, h2, _⟩ := h
              subst h1; subst h2
              rcases List.mem_cons.mp he with he | he
              · refine ⟨mt, List.mem_cons_self _ _, fresh, ts, sp, hex, he, fun hb => ?_⟩
                subst he
                constructor
                · exact List.mem_append_left _ (by simp [dProvRecords, hb])
                · refine List.mem_append_left _ ?_
                  simp [dProvRecords, hb, dNormAttr]
              · exact DGood_mono m seg (ih _ _ _ _ hrec e he)
                  (fun x hx => List.mem_cons_of_mem _ hx)
                  (fun r hr => List.mem_append_right _ hr)
        · exact DGood_mono m seg (ih _ _ _ _ h e he)
            (fun x hx => List.mem_cons_of_mem _ hx) (fun r hr => hr)

theorem dRun_mem (m : DucklingMatcher) :
    ∀ (inputs : List (Segment × DResponse)) (fresh : Nat) (es : List Entity)
      (ps : List ProvRecord) (f : Nat),
      dRun m inputs fresh = .ok (es, ps, f) →
      ∀ e ∈ es, ∃ p ∈ inputs, p.2.status = 200 ∧ DGood m p.1 p.2.matchList ps e := by
  intro inputs
  induction inputs with
  | nil =>
      intro fresh es ps f h e he
      simp only [dRun, Except.ok.injEq, Prod.mk.injEq] at h
      obtain ⟨h1, _, _⟩ := h
      subst h1
      simp at he
  | cons p rest ih =>
      intro fresh es ps f h e he
      rw [dRun] at h
      split at h
      · simp at h
      · rename_i es1 ps1 f1 hseg
        split at h
        · simp at h
        · rename_i es2 ps2 f2 hrest
          simp only [Except.ok.injEq, Prod.mk.injEq] at h
          obtain ⟨h1, h2, _⟩ := h
          subst h1; subst h2
          rcases List.mem_append.mp he with he | he
          · rw [dFindSegment] at hseg
            split at hseg
            · rename_i hstatus
              exact ⟨p, List.mem_cons_self _ _, hstatus,
                DGood_mono m p.1 (dFindMatches_mem m p.1 _ _ _ _ _ hseg e he)
                  (fun x hx => hx) (fun r hr => List.mem_append_left _ hr)⟩
            · simp at hseg
          · obtain ⟨p', hp', hst, hgood⟩ := ih _ _ _ _ hrest e he
            exact ⟨p', List.mem_cons_of_mem _ hp', hst,
              DGood_mono m p'.1 hgood (fun x hx => hx)
                (fun r hr => List.mem_append_right _ hr)⟩

theorem qNormAttr_id (m : QuickUMLSMatcher) (c : Candidate) (fr : Nat) :
    (qNormAttr m c fr).id = fr := rfl

theorem qEntity_getLast (m : QuickUMLSMatcher) (seg : Segment) (c : Candidate)
    (ts : List Char) (sp : List AnySpan) (fr : Nat) :
    (qEntity m seg c ts sp fr).attrs.getLast? = some (qNormAttr m c (fr + 1)) := by
  simp [qEntity]

theorem qEntity_dropLast (m : QuickUMLSMatcher) (seg : Segment) (c : Candidate)
    (ts : List Char) (sp : List AnySpan) (fr : Nat) :
    (qEntity m seg c ts sp fr).attrs.dropLast = copiedAttrs m.attrs_to_copy seg.attrs := by
  simp [qEntity]

theorem copiedAttrs_subset :
    ∀ (labels : List String) (attrs : List Attribute) (a : Attribute),
      a ∈ copiedAttrs labels attrs → a ∈ attrs := by
  intro labels
  induction labels with
  | nil => intro attrs a h; simp [copiedAttrs] at h
  | cons lbl rest ih =>
      intro attrs a h
      rw [copiedAttrs] at h
      rcases List.mem_append.mp h with h | h
      · exact List.mem_of_mem_filter h
      · exact ih attrs a h

theorem QGood_mono (m : QuickUMLSMatcher) (seg : Segment) {ms ms' : List (List Candidate)}
    {ps ps' : List ProvRecord} {e : Entity}
    (h : QGood m seg ms ps e) (hms : ∀ x ∈ ms, x ∈ ms') (hps : ∀ r ∈ ps, r ∈ ps') :
    QGood m seg ms' ps' e := by
  obtain ⟨loc, hloc, c, hc, fr, ts, sp, hex, he, hp⟩ := h
  exact ⟨loc, hms loc hloc, c, hc, fr, ts, sp, hex, he,
    fun hb => ⟨hps _ ((hp hb).1), hps _ ((hp hb).2)⟩⟩

theorem qFindMatches_mem (m : QuickUMLSMatcher) (seg : Segment) :
    ∀ (ms : List (List Candidate)) (fresh : Nat) (es : List Entity)
      (ps : List ProvRecord) (f : Nat),
      qFindMatches m seg ms fresh = .ok (es, ps, f) → ∀ e ∈ es, QGood m seg ms ps e := by
  intro ms
  induction ms with
  | nil =>
      intro fresh es ps f h e he
      simp only [qFindMatches, Except.ok.injEq, Prod.mk.injEq] at h
      obtain ⟨h1, _, _⟩ := h
      subst h1
      simp at he
  | cons loc rest ih =>
      intro fresh es ps f h e he
      cases loc with
      | nil =>
          rw [qFindMatches] at h
          simp at h
      | cons c cs =>
        rw [qFindMatches] at h
        split at h
        · simp at h
        · rename_i ts sp hex
          split at h
          · simp at h
          · rename_i es' ps' f' hrec
            simp only [Except.ok.injEq, Prod.mk.injEq] at h
            obtain ⟨h1, h2, _⟩ := h
            subst h1; subst h2
            rcases List.mem_cons.mp he with he | he
            · refine ⟨c :: cs, List.mem_cons_self _ _, c, rfl, fresh, ts, sp, hex, he,
                fun hb => ?_⟩
              subst he
              constructor
              · exact List.mem_append_left _ (by simp [qProvRecords, hb])
              · refine List.mem_append_left _ ?_
                simp [qProvRecords, hb, qNormAttr]
            · exact QGood_mono m seg (ih _ _ _ _ hrec e he)
                (fun x hx => List.mem_cons_of_mem _ hx)
                (fun r hr => List.mem_append_right _ hr)

theorem qRun_mem (m : QuickUMLSMatcher) :
    ∀ (inputs : List (Segment × List (List Candidate))) (fresh : Nat) (es : List Entity)
      (ps : List ProvRecord) (f : Nat),
      qRun m inputs fresh = .ok (es, ps, f) →
      ∀ e ∈ es, ∃ p ∈ inputs, QGood m p.1 p.2 ps e := by
  intro inputs
  induction inputs with
  | nil =>
      intro fresh es ps f h e he
      simp only [qRun, Except.ok.injEq, Prod.mk.injEq] at h
      obtain ⟨h1, _, _⟩ := h
      subst h1
      simp at he
  | cons p rest ih =>
      intro fresh es ps f h e he
      rw [qRun] at h
      split at h
      · simp at h
      · rename_i es1 ps1 f1 hseg
        split at h
        · simp at h
        · rename_i es2 ps2 f2 hrest
          simp only [Except.ok.injEq, Prod.mk.injEq] at h
          obtain ⟨h1, h2, _⟩ := h
          subst h1; subst h2
          rcases List.mem_append.mp he with he | he
          · exact ⟨p, List.mem_cons_self _ _,
              QGood_mono m p.1 (qFindMatches_mem m p.1 _ _ _ _ _ hseg e he)
                (fun x hx => hx) (fun r hr => List.mem_append_left _ hr)⟩
          · obtain ⟨p', hp', hgood⟩ := ih _ _ _ _ hrest e he
            exact ⟨p', List.mem_cons_of_mem _ hp',
              QGood_mono m p'.1 hgood (fun x hx => hx)
                (fun r hr => List.mem_append_right _ hr)⟩

/-- C1: for `DucklingMatcher.run` and `QuickUMLSMatcher.run`, whenever a
provenance sink is attached, every entity of the returned list has an
`add_prov` record with the matcher's operation id and its source segment as
sole source item, and so does its newly created normalization attribute (the
entity's last attribute, labelled with the matcher's output label for
Duckling and "umls" for QuickUMLS); the records are issued inside `run`,
hence before it returns, and no output item is omitted. -/
theorem claim_C1_every_output_has_provenance :
    (∀ (m : DucklingMatcher) (inputs : List (Segment × DResponse)) (fresh : Nat)
        (es : List Entity) (ps : List ProvRecord) (f : Nat),
        m.prov_builder = true →
        dRun m inputs fresh = .ok (es, ps, f) →
        ∀ e ∈ es, ∃ p ∈ inputs,
          ProvRecord.mk e.id m.id [p.1.id] ∈ ps ∧
          ∃ a, e.attrs.getLast? = some a ∧ a.label = m.output_label ∧
            ProvRecord.mk a.id m.id [p.1.id] ∈ ps) ∧
    (∀ (m : QuickUMLSMatcher) (inputs : List (Segment × List (List Candidate)))
        (fresh : Nat) (es : List Entity) (ps : List ProvRecord) (f : Nat),
        m.prov_tracer = true →
        qRun m inputs fresh = .ok (es, ps, f) →
        ∀ e ∈ es, ∃ p ∈ inputs,
          ProvRecord.mk e.id m.id [p.1.id] ∈ ps ∧
          ∃ a, e.attrs.getLast? = some a ∧ a.label = "umls" ∧
            ProvRecord.mk a.id m.id [p.1.id] ∈ ps) := by
  constructor
  · intro m inputs fresh es ps f hb h e he
    obtain ⟨p, hp, _, mt, _, fr, ts, sp, _, hee, hprov⟩ :=
      dRun_mem m inputs fresh es ps f h e he
    obtain ⟨h1, h2⟩ := hprov hb
    refine ⟨p, hp, h1, dNormAttr m mt fr, ?_, rfl, ?_⟩
    · rw [hee]; exact dEntity_getLast m p.1 mt ts sp fr
    · rw [dNormAttr_id]; exact h2
  · intro m inputs fresh es ps f hb h e he
    obtain ⟨p, hp, loc, _, c, _, fr, ts, sp, _, hee, hprov⟩ :=
      qRun_mem m inputs fresh es ps f h e he
    obtain ⟨h1, h2⟩ := hprov hb
    refine ⟨p, hp, h1, qNormAttr m c (fr + 1), ?_, rfl, ?_⟩
    · rw [hee]; exact qEntity_getLast m p.1 c ts sp fr
    · rw [qNormAttr_id]; exact h2

/-- C2: every entity returned by `DucklingMatcher.run` or
`QuickUMLSMatcher.run` has exactly the text and spans returned by
`span_utils.extract(segment.text, segment.spans, [(start, end)])` for its
match's offsets in the source segment's coordinate system; offsets are never
recomputed against the original document text. -/
theorem claim_C2_output_spans_via_extract :
    (∀ (m : DucklingMatcher) (inputs : List (Segment × DResponse)) (fresh : Nat)
        (es : List Entity) (ps : List ProvRecord) (f : Nat),
        dRun m inputs fresh = .ok (es, ps, f) →
        ∀ e ∈ es, ∃ p ∈ inputs, ∃ mt ∈ p.2.matchList,
          extract p.1.text p.1.spans [(mt.start, mt.stop)] = .ok (e.text, e.spans)) ∧
    (∀ (m : QuickUMLSMatcher) (inputs : List (Segment × List (List Candidate)))
        (fresh : Nat) (es : List Entity) (ps : List ProvRecord) (f : Nat),
        qRun m inputs fresh = .ok (es, ps, f) →
        ∀ e ∈ es, ∃ p ∈ inputs, ∃ loc ∈ p.2, ∃ c, loc.head? = some c ∧
          extract p.1.text p.1.spans [(c.start, c.stop)] = .ok (e.text, e.spans)) := by
  constructor
  · intro m inputs fresh es ps f h e he
    obtain ⟨p, hp, _, mt, hmt, fr, ts, sp, hex, hee, _⟩ :=
      dRun_mem m inputs fresh es ps f h e he
    refine ⟨p, hp, mt, hmt, ?_⟩
    rw [hee]; exact hex
  · intro m inputs fresh es ps f h e he
    obtain ⟨p, hp, loc, hloc, c, hc, fr, ts, sp, hex, hee, _⟩ :=
      qRun_mem m inputs fresh es ps f h e he
    refine ⟨p, hp, loc, hloc, c, hc, ?_⟩
    rw [hee]; exact hex

/-- C3 counterexample: running the concrete Duckling matcher (with
`attrs_to_copy = ["negation"]`) over the concrete segment yields an entity
that carries the very same `Attribute` object (`aNegW`, id 5) that is attached
to the source segment — the attribute is attached to two annotations at once,
so attributes are not exclusively owned and the copied attributes are the
same objects as the segment's, contradicting the claim. -/
theorem claim_C3_counterexample :
    dRun dmW [(segW, respW)] 100
        = .ok ([entC3], [ProvRecord.mk 101 7 [1], ProvRecord.mk 100 7 [1]], 102) ∧
    aNegW ∈ entC3.attrs ∧ aNegW ∈ segW.attrs := by
  refine ⟨by decide, by decide, by decide⟩

/-- C3 amended: the attributes that a matcher copies onto a new entity via a
non-empty `attrs_to_copy` are shared, not duplicated: every attribute of the
produced entity except the trailing normalization attribute is one of the
very attribute objects attached to the source segment (only the normalization
attribute is newly created for the entity). -/
theorem claim_C3_amended_copied_attrs_are_shared :
    (∀ (m : DucklingMatcher) (inputs : List (Segment × DResponse)) (fresh : Nat)
        (es : List Entity) (ps : List ProvRecord) (f : Nat),
        dRun m inputs fresh = .ok (es, ps, f) →
        ∀ e ∈ es, ∃ p ∈ inputs, ∀ a ∈ e.attrs.dropLast, a ∈ p.1.attrs) ∧
    (∀ (m : QuickUMLSMatcher) (inputs : List (Segment × List (List Candidate)))
        (fresh : Nat) (es : List Entity) (ps : List ProvRecord) (f : Nat),
        qRun m inputs fresh = .ok (es, ps, f) →
        ∀ e ∈ es, ∃ p ∈ inputs, ∀ a ∈ e.attrs.dropLast, a ∈ p.1.attrs) := by
  constructor
  · intro m inputs fresh es ps f h e he
    obtain ⟨p, hp, _, mt, _, fr, ts, sp, _, hee, _⟩ :=
      dRun_mem m inputs fresh es ps f h e he
    refine ⟨p, hp, ?_⟩
    intro a ha
    rw [hee, dEntity_dropLast] at ha
    exact List.mem_of_mem_filter ha
  · intro m inputs fresh es ps f h e he
    obtain ⟨p, hp, loc, _, c, _, fr, ts, sp, _, hee, _⟩ :=
      qRun_mem m inputs fresh es ps f h e he
    refine ⟨p, hp, ?_⟩
    intro a ha
    rw [hee, qEntity_dropLast] at ha
    exact copiedAttrs_subset _ _ _ ha

/-- Witness for C1 at concrete inputs: one segment per matcher, provenance
sinks attached, one produced entity each; both `add_prov` records exist. -/
theorem claim_C1_witness :
    dmW.prov_builder = true ∧ qmW.prov_tracer = true ∧
    dRun dmW [(segW, respW)] 100
      = .ok ([entC3], [ProvRecord.mk 101 7 [1], ProvRecord.mk 100 7 [1]], 102) ∧
    qRun qmW [(segW, [[qcW, qcW2]])] 200
      = .ok ([entQW], [ProvRecord.mk 200 8 [1], ProvRecord.mk 201 8 [1]], 202) ∧
    (∀ e ∈ [entC3], ∃ p ∈ [(segW, respW)],
      ProvRecord.mk e.id dmW.id [p.1.id]
          ∈ [ProvRecord.mk 101 7 [1], ProvRecord.mk 100 7 [1]] ∧
      ∃ a, e.attrs.getLast? = some a ∧ a.label = dmW.output_label ∧
        ProvRecord.mk a.id dmW.id [p.1.id]
          ∈ [ProvRecord.mk 101 7 [1], ProvRecord.mk 100 7 [1]]) ∧
    (∀ e ∈ [entQW], ∃ p ∈ [(segW, [[qcW, qcW2]])],
      ProvRecord.mk e.id qmW.id [p.1.id]
          ∈ [ProvRecord.mk 200 8 [1], ProvRecord.mk 201 8 [1]] ∧
      ∃ a, e.attrs.getLast? = some a ∧ a.label = "umls" ∧
        ProvRecord.mk a.id qmW.id [p.1.id]
          ∈ [ProvRecord.mk 200 8 [1], ProvRecord.mk 201 8 [1]]) := by
  refine ⟨rfl, rfl, by decide, by decide, ?_, ?_⟩
  · exact claim_C1_every_output_has_provenance.1 dmW [(segW, respW)] 100 [entC3]
      [ProvRecord.mk 101 7 [1], ProvRecord.mk 100 7 [1]] 102 rfl (by decide)
  · exact claim_C1_every_output_has_provenance.2 qmW [(segW, [[qcW, qcW2]])] 200 [entQW]
      [ProvRecord.mk 200 8 [1], ProvRecord.mk 201 8 [1]] 202 rfl (by decide)

/-- Witness for C2 at the same concrete inputs. -/
theorem claim_C2_witness :
    dRun dmW [(segW, respW)] 100
      = .ok ([entC3], [ProvRecord.mk 101 7 [1], ProvRecord.mk 100 7 [1]], 102) ∧
    qRun qmW [(segW, [[qcW, qcW2]])] 200
      = .ok ([entQW], [ProvRecord.mk 200 8 [1], ProvRecord.mk 201 8 [1]], 202) ∧
    (∀ e ∈ [entC3], ∃ p ∈ [(segW, respW)], ∃ mt ∈ p.2.matchList,
      extract p.1.text p.1.spans [(mt.start, mt.stop)] = .ok (e.text, e.spans)) ∧
    (∀ e ∈ [entQW], ∃ p ∈ [(segW, [[qcW, qcW2]])], ∃ loc ∈ p.2, ∃ c, loc.head? = some c ∧
      extract p.1.text p.1.spans [(c.start, c.stop)] = .ok (e.text, e.spans)) := by
  refine ⟨by decide, by decide, ?_, ?_⟩
  · exact claim_C2_output_spans_via_extract.1 dmW [(segW, respW)] 100 [entC3]
      [ProvRecord.mk 101 7 [1], ProvRecord.mk 100 7 [1]] 102 (by decide)
  · exact claim_C2_output_spans_via_extract.2 qmW [(segW, [[qcW, qcW2]])] 200 [entQW]
      [ProvRecord.mk 200 8 [1], ProvRecord.mk 201 8 [1]] 202 (by decide)

/-- Witness for the amended C3 at the same concrete inputs. -/
theorem claim_C3_amended_witness :
    dRun dmW [(segW, respW)] 100
      = .ok ([entC3], [ProvRecord.mk 101 7 [1], ProvRecord.mk 100 7 [1]], 102) ∧
    qRun qmW [(segW, [[qcW, qcW2]])] 200
      = .ok ([entQW], [ProvRecord.mk 200 8 [1], ProvRecord.mk 201 8 [1]], 202) ∧
    (∀ e ∈ [entC3], ∃ p ∈ [(segW, respW)], ∀ a ∈ e.attrs.dropLast, a ∈ p.1.attrs) ∧
    (∀ e ∈ [entQW], ∃ p ∈ [(segW, [[qcW, qcW2]])], ∀ a ∈ e.attrs.dropLast, a ∈ p.1.attrs) := by
  refine ⟨by decide, by decide, ?_, ?_⟩
  · exact claim_C3_amended_copied_attrs_are_shared.1 dmW [(segW, respW)] 100 [entC3]
      [ProvRecord.mk 101 7 [1], ProvRecord.mk 100 7 [1]] 102 (by decide)
  · exact claim_C3_amended_copied_attrs_are_shared.2 qmW [(segW, [[qcW, qcW2]])] 200 [entQW]
      [ProvRecord.mk 200 8 [1], ProvRecord.mk 201 8 [1]] 202 (by decide)

/-- C4: if, while `DucklingMatcher.run` processes its list of segments, the
`/parse` request of some segment comes back with an HTTP status other than
200 (all earlier segments having been processed successfully), the whole run
raises `ConnectionError`: no list of entities is returned at all, including
the entities already found for the earlier segments. -/
theorem claim_C4_bad_status_aborts_whole_run :
    ∀ (m : DucklingMatcher) (pre : List (Segment × DResponse))
      (post : List (Segment × DResponse)) (seg : Segment) (r : DResponse) (fresh : Nat)
      (es : List Entity) (ps : List ProvRecord) (f : Nat),
      r.status ≠ 200 →
      dRun m pre fresh = .ok (es, ps, f) →
      dRun m (pre ++ (seg, r) :: post) fresh = .error .connectionError := by
  intro m pre
  induction pre with
  | nil =>
      intro post seg r fresh es ps f hr _
      rw [List.nil_append, dRun, dFindSegment, if_neg hr]
  | cons p rest ih =>
      intro post seg r fresh es ps f hr h
      rw [dRun] at h
      split at h
      · simp at h
      · rename_i es1 ps1 f1 hseg
        split at h
        · simp at h
        · rename_i es2 ps2 f2 hrest
          have hx := ih post seg r f1 es2 ps2 f2 hr hrest
          rw [List.cons_append, dRun, hseg]
          simp only [hx]

/-- Witness for C4: a run whose first segment succeeds and whose second
segment answers with status 500 fails whole with `ConnectionError`. -/
theorem claim_C4_witness :
    respBad.status ≠ 200 ∧
    dRun dmW [(segW, respW)] 100
      = .ok ([entC3], [ProvRecord.mk 101 7 [1], ProvRecord.mk 100 7 [1]], 102) ∧
    dRun dmW ([(segW, respW)] ++ (segW, respBad) :: []) 100 = .error .connectionError := by
  refine ⟨by decide, by decide, ?_⟩
  exact claim_C4_bad_status_aborts_whole_run dmW [(segW, respW)] [] segW respBad 100 [entC3]
    [ProvRecord.mk 101 7 [1], ProvRecord.mk 100 7 [1]] 102 (by decide) (by decide)

/-- C7: `DucklingMatcher.from_description` applied to `m.description`
reconstructs a matcher with the same configuration as `m`: equal id,
output_label, version, url, locale, dims and attrs_to_copy. -/
theorem claim_C7_description_roundtrip :
    ∀ (m : DucklingMatcher) (generatedId : Nat),
      (DucklingMatcher.from_description m.description generatedId).id = m.id ∧
      (DucklingMatcher.from_description m.description generatedId).output_label
        = m.output_label ∧
      (DucklingMatcher.from_description m.description generatedId).version = m.version ∧
      (DucklingMatcher.from_description m.description generatedId).url = m.url ∧
      (DucklingMatcher.from_description m.description generatedId).locale = m.locale ∧
      (DucklingMatcher.from_description m.description generatedId).dims = m.dims ∧
      (DucklingMatcher.from_description m.description generatedId).attrs_to_copy
        = m.attrs_to_copy := by
  intro m generatedId
  exact ⟨rfl, rfl, rfl, rfl, rfl, rfl, rfl⟩

/-- C8: for each match location reported by the underlying QuickUMLS matcher,
the matcher creates exactly one entity, built from the location's first
candidate: the result is unchanged when every location's candidate list is
truncated to its first element (all other candidates are discarded, no
tie-break applied), and a successful run yields exactly one entity per
location. -/
theorem claim_C8_first_candidate_only :
    ∀ (m : QuickUMLSMatcher) (seg : Segment) (ms : List (List Candidate)) (fresh : Nat),
      (∀ loc ∈ ms, loc ≠ []) →
      qFindMatches m seg ms fresh
          = qFindMatches m seg (ms.map fun loc => loc.take 1) fresh ∧
      (∀ es ps f, qFindMatches m seg ms fresh = .ok (es, ps, f)
          → es.length = ms.length) := by
  intro m seg ms
  induction ms with
  | nil =>
      intro fresh _
      constructor
      · rfl
      · intro es ps f h
        simp only [qFindMatches, Except.ok.injEq, Prod.mk.injEq] at h
        obtain ⟨h1, _, _⟩ := h
        subst h1
        rfl
  | cons loc rest ih =>
      intro fresh hne
      obtain ⟨c, cs, rfl⟩ : ∃ c cs, loc = c :: cs := by
        cases loc with
        | nil => exact absurd rfl (hne [] (List.mem_cons_self _ _))
        | cons c cs => exact ⟨c, cs, rfl⟩
      have hrest : ∀ l ∈ rest, l ≠ [] := fun l hl => hne l (List.mem_cons_of_mem _ hl)
      constructor
      · rw [List.map_cons, List.take_succ_cons, List.take_zero, qFindMatches, qFindMatches]
        simp only [(ih (fresh + 2) hrest).1]
      · intro es ps f h
        rw [qFindMatches] at h
        split at h
        · simp at h
        · rename_i ts sp hex
          split at h
          · simp at h
          · rename_i es' ps' f' hrec
            simp only [Except.ok.injEq, Prod.mk.injEq] at h
            obtain ⟨h1, _, _⟩ := h
            subst h1
            simp [(ih (fresh + 2) hrest).2 es' ps' f' hrec]

/-- Witness for C8 at a concrete location with two candidates. -/
theorem claim_C8_witness :
    (∀ loc ∈ [[qcW, qcW2]], loc ≠ []) ∧
    qFindMatches qmW segW [[qcW, qcW2]] 200
        = qFindMatches qmW segW ([[qcW, qcW2]].map fun loc => loc.take 1) 200 ∧
    qFindMatches qmW segW [[qcW, qcW2]] 200
        = .ok ([entQW], [ProvRecord.mk 200 8 [1], ProvRecord.mk 201 8 [1]], 202) ∧
    [entQW].length = [[qcW, qcW2]].length := by
  refine ⟨by decide, (claim_C8_first_candidate_only qmW segW [[qcW, qcW2]] 200 (by decide)).1,
    by decide, ?_⟩
  exact (claim_C8_first_candidate_only qmW segW [[qcW, qcW2]] 200 (by decide)).2 [entQW]
    [ProvRecord.mk 200 8 [1], ProvRecord.mk 201 8 [1]] 202 (by decide)

/-- C9: after `add_install(path, version, language, lowercase,
normalize_unicode)`, `_get_path_to_install` with the same four settings
returns `str(path)` (the most recent registration wins); for settings with no
registration, or for any settings after `clear_installs()`, it raises instead
of returning a path, so constructing a matcher for an unregistered install
always fails. -/
theorem claim_C9_install_registry :
    (∀ (reg : Installs) (path version language : String)
        (lowercase normalize_unicode : Bool),
      get_path_to_install (add_install reg path version language lowercase normalize_unicode)
        version language lowercase normalize_unicode = .ok path) ∧
    (∀ (reg : Installs) (version language : String) (lowercase normalize_unicode : Bool),
      lookupInstall reg (QuickUMLSInstall.mk version language lowercase normalize_unicode)
          = none →
      get_path_to_install reg version language lowercase normalize_unicode
        = .error .notFoundError) ∧
    (∀ (version language : String) (lowercase normalize_unicode : Bool) (reg : Installs),
      get_path_to_install (clear_installs reg) version language lowercase normalize_unicode
        = .error .notFoundError) ∧
    (∀ (reg : Installs) (version language : String) (lowercase normalize_unicode : Bool)
        (overlapping threshold : String) (window : Nat) (similarity : String)
        (accepted_semtypes : List String) (attrs_to_copy : Option (List String)) (uid : Nat),
      lookupInstall reg (QuickUMLSInstall.mk version language lowercase normalize_unicode)
          = none →
      quickUMLSInit reg version language lowercase normalize_unicode overlapping threshold
        window similarity accepted_semtypes attrs_to_copy uid = .error .notFoundError) := by
  refine ⟨?_, ?_, ?_, ?_⟩
  · intro reg path v l lc nu
    simp [get_path_to_install, add_install, lookupInstall]
  · intro reg v l lc nu h
    simp [get_path_to_install, h]
  · intro v l lc nu reg
    simp [get_path_to_install, clear_installs, lookupInstall]
  · intro reg v l lc nu ov th w sim acc atc uid h
    simp [quickUMLSInit, get_path_to_install, h]

/-- Witness for C9 at concrete settings and paths. -/
theorem claim_C9_witness :
    lookupInstall [] (QuickUMLSInstall.mk "2021AB" "FRE" true false) = none ∧
    get_path_to_install (add_install [] "/path/to/install" "2021AB" "FRE" true false)
      "2021AB" "FRE" true false = .ok "/path/to/install" ∧
    get_path_to_install [] "2021AB" "FRE" true false = .error .notFoundError ∧
    get_path_to_install
      (clear_installs (add_install [] "/path/to/install" "2021AB" "FRE" true false))
      "2021AB" "FRE" true false = .error .notFoundError ∧
    quickUMLSInit [] "2021AB" "FRE" true false "length" "0.9" 5 "jaccard" [] none 3
      = .error .notFoundError := by
  refine ⟨rfl,
    claim_C9_install_registry.1 [] "/path/to/install" "2021AB" "FRE" true false,
    claim_C9_install_registry.2.1 [] "2021AB" "FRE" true false rfl,
    claim_C9_install_registry.2.2.1 "2021AB" "FRE" true false _,
    claim_C9_install_registry.2.2.2 [] "2021AB" "FRE" true false "length" "0.9" 5
      "jaccard" [] none 3 rfl⟩

/-- Every successful Duckling match loop with `dims = None` produced no
entity: the first match would have raised `TypeError` in the membership test
`match["dim"] not in self.dims`. -/
theorem dFindMatches_none_dims (m : DucklingMatcher) (hm : m.dims = none) (seg : Segment) :
    ∀ (ms : List DMatch) (fresh : Nat) (es : List Entity) (ps : List ProvRecord) (f : Nat),
      dFindMatches m seg ms fresh = .ok (es, ps, f) → es = [] := by
  intro ms
  cases ms with
  | nil =>
      intro fresh es ps f h
      simp only [dFindMatches, Except.ok.injEq, Prod.mk.injEq] at h
      exact h.1.symm
  | cons mt rest =>
      intro fresh es ps f h
      rw [dFindMatches] at h
      split at h
      · simp at h
      · rename_i keep hdim
        rw [hm] at hdim
        simp [dimCheck] at hdim

/-- C10: a `DucklingMatcher` constructed with `dims=None` raises `TypeError`
as soon as a segment's `/parse` response contains at least one match (the
per-match filter evaluates `match["dim"] not in None`); consequently, with
`dims=None`, `run` can only return an empty list or fail. -/
theorem claim_C10_none_dims_typeerror :
    ∀ (m : DucklingMatcher), m.dims = none →
      (∀ (seg : Segment) (resp : DResponse) (fresh : Nat),
        resp.status = 200 → resp.matchList ≠ [] →
        dFindSegment m seg resp fresh = .error .typeError) ∧
      (∀ (inputs : List (Segment × DResponse)) (fresh : Nat) (es : List Entity)
          (ps : List ProvRecord) (f : Nat),
        dRun m inputs fresh = .ok (es, ps, f) → es = []) := by
  intro m hm
  constructor
  · intro seg resp fresh hst hne
    rw [dFindSegment, if_pos hst]
    cases hml : resp.matchList with
    | nil => exact absurd hml hne
    | cons mt rest =>
        rw [dFindMatches, hm]
        rfl
  · intro inputs
    induction inputs with
    | nil =>
        intro fresh es ps f h
        simp only [dRun, Except.ok.injEq, Prod.mk.injEq] at h
        exact h.1.symm
    | cons p rest ih =>
        intro fresh es ps f h
        rw [dRun] at h
        split at h
        · simp at h
        · rename_i es1 ps1 f1 hseg
          split at h
          · simp at h
          · rename_i es2 ps2 f2 hrest
            simp only [Except.ok.injEq, Prod.mk.injEq] at h
            obtain ⟨h1, _, _⟩ := h
            subst h1
            have h2 : es2 = [] := ih f1 es2 ps2 f2 hrest
            have h1' : es1 = [] := by
              rw [dFindSegment] at hseg
              split at hseg
              · exact dFindMatches_none_dims m hm p.1 _ _ _ _ _ hseg
              · simp at hseg
            rw [h1', h2]
            rfl

/-- Witness for C10: the concrete matcher with `dims=None` raises `TypeError`
on a response holding one match, and a run over a matchless response
succeeds with the empty entity list. -/
theorem claim_C10_witness :
    dmNone.dims = none ∧ respW.status = 200 ∧ respW.matchList ≠ [] ∧
    dFindSegment dmNone segW respW 100 = .error .typeError ∧
    dRun dmNone [(segW, respEmpty)] 50 = .ok ([], [], 50) ∧
    ([] : List Entity) = [] := by
  refine ⟨rfl, rfl, by decide, ?_, by decide, ?_⟩
  · exact (claim_C10_none_dims_typeerror dmNone rfl).1 segW respW 100 rfl (by decide)
  · exact (claim_C10_none_dims_typeerror dmNone rfl).2 [(segW, respEmpty)] 50 [] [] 50
      (by decide)

/-- C5 counterexample: the text "Sentence testing the dot." has length 25, so
extracting the range (0,25) selects the whole text, trailing dot included:
`extract` returns `("Sentence testing the dot.", [Span(0,25)])`, not the
claimed `("Sentence testing the dot", [Span(0,25)])` — no character is
dropped at the stated offsets. -/
theorem claim_C5_counterexample :
    extract dotText [.simple 0 26] [(0, 25)] = .ok (dotText, [.simple 0 25]) ∧
    dotText ≠ "Sentence testing the dot".toList := by
  exact ⟨by decide, by decide⟩

/-- C5 amended: with the off-by-one fixed — the 25-character text is denoted
by `Span(0,25)` and the trailing dot is dropped by selecting range (0,24) —
extraction is boundary-exact:
`extract("Sentence testing the dot.", [Span(0,25)], [(0,24)])` returns
`("Sentence testing the dot", [Span(0,24)])`. -/
theorem claim_C5_amended_boundary_exactness :
    extract dotText [.simple 0 25] [(0, 24)]
      = .ok ("Sentence testing the dot".toList, [.simple 0 24]) := by
  decide

/-- C6: sentence segmentation over the test document text produces exactly 7
sentence segments, with and without kept punctuation, each at its literal
expected start/end offsets, and every character of each produced segment's
text is recoverable by indexing the original document text at the offsets
given by its spans. -/
theorem claim_C6_segmentation_scenario :
    sentenceTokenize false segmentationText =
      [ { text := "Sentence testing the dot".toList, spans := [.simple 0 24] },
        { text := "We are testing the carriage return".toList, spans := [.simple 26 60] },
        { text := "this is the newline".toList, spans := [.simple 61 80] },
        { text := "Test interrogation ".toList, spans := [.simple 82 101] },
        { text := "Now, testing semicolon".toList, spans := [.simple 103 125] },
        { text := "Exclamation".toList, spans := [.simple 126 137] },
        { text := "Several punctuation characters".toList, spans := [.simple 139 169] } ] ∧
    sentenceTokenize true segmentationText =
      [ { text := "Sentence testing the dot.".toList, spans := [.simple 0 25] },
        { text := "We are testing the carriage return\r".toList, spans := [.simple 26 61] },
        { text := "this is the newline\n".toList, spans := [.simple 61 81] },
        { text := "Test interrogation ?".toList, spans := [.simple 82 102] },
        { text := "Now, testing semicolon;".toList, spans := [.simple 103 126] },
        { text := "Exclamation!".toList, spans := [.simple 126 138] },
        { text := "Several punctuation characters?!...".toList, spans := [.simple 139 174] } ] ∧
    (sentenceTokenize false segmentationText).length = 7 ∧
    (sentenceTokenize true segmentationText).length = 7 ∧
    ((sentenceTokenize false segmentationText
        ++ sentenceTokenize true segmentationText).all
      (recoverable segmentationText)) = true := by
  exact ⟨by decide, by decide, by decide, by decide, by decide⟩

end Medkit
